import Mathlib

/-!
Verification of the Result subsystem of the `@oxog/types` package
(`src/result.ts`, `src/guards.ts`).

The executable semantics of the relevant JavaScript fragment is embedded
shallowly:

* `JSVal` models a runtime value.  Primitives, `BigInt`, `Symbol`,
  functions and native `Error` objects are modelled immediately; plain
  objects live in a `Heap` (a list of `PlainObj`) and are referenced by
  index, which is what makes circular structures expressible.
* A `PlainObj` carries its ordered own enumerable data properties plus two
  optional behaviours that the code under verification can observe: a
  `toJSON` hook (consulted by `JSON.stringify`) and a `toString` hook
  (consulted by the abstract string coercion `jsToString`).  Either hook
  may return a value or throw.  Property getters and proxies are outside
  the model; reading an ordinary data property never throws.
* Exceptions are modelled with `Except JSVal`: a `.error v` outcome is the
  JavaScript value `v` being thrown.  `throw new Error(m)` throws
  `JSVal.errV m`.
* Error-object identity is not tracked: two structurally equal `errV`
  values are indistinguishable, and error objects are not entered into the
  serializer's visited set (observable only when one error object occurs
  twice inside one payload, which no property here depends on).
* `JSON.stringify(value, replacer)` is modelled by `serProp`, fuel-based:
  the visited-set discipline bounds the recursion depth by the heap size,
  so the generous fuel chosen by `jsonStringifyWith` is never exhausted on
  values the claims touch; the fuel-out marker exists only to make the
  definition total.
-/

/-- A JavaScript runtime value.  Plain objects are heap references. -/
inductive JSVal where
  | null
  | undef
  | bool (b : Bool)
  | num (n : Int)
  | str (s : String)
  | bigint (i : Int)
  | sym (desc : String)
  | fnV
  | errV (message : String)
  | objRef (id : Nat)
deriving DecidableEq

/-- A plain JavaScript object: ordered own enumerable data properties,
plus optional `toJSON` / `toString` behaviours, each of which may return
a value or throw one. -/
structure PlainObj where
  fields : List (String × JSVal)
  toJSONHook : Option (Except JSVal JSVal) := none
  toStringHook : Option (Except JSVal String) := none

/-- The object heap: `objRef id` points at entry `id`. -/
abbrev Heap : Type := List PlainObj

/-- Heap lookup. -/
def Heap.obj? (h : Heap) (id : Nat) : Option PlainObj :=
  List.get? h id

/-- The `typeof` operator restricted to the values of the model. -/
def typeofJS : JSVal → String
  | JSVal.null => "object"
  | JSVal.undef => "undefined"
  | JSVal.bool _ => "boolean"
  | JSVal.num _ => "number"
  | JSVal.str _ => "string"
  | JSVal.bigint _ => "bigint"
  | JSVal.sym _ => "symbol"
  | JSVal.fnV => "function"
  | JSVal.errV _ => "object"
  | JSVal.objRef _ => "object"

/-- Property read `v[k]`.  Absent properties read as `undefined`; a native
error object exposes only its `message`. -/
def getField (h : Heap) (v : JSVal) (k : String) : JSVal :=
  match v with
  | JSVal.objRef id =>
    match Heap.obj? h id with
    | some o => ((o.fields.lookup k).getD JSVal.undef)
    | none => JSVal.undef
  | JSVal.errV m => if k = ("message") then JSVal.str m else JSVal.undef
  | _ => JSVal.undef

/-- The `in` operator: own-property presence (presence is independent of
the property holding `undefined`). -/
def hasField (h : Heap) (v : JSVal) (k : String) : Bool :=
  match v with
  | JSVal.objRef id =>
    match Heap.obj? h id with
    | some o => o.fields.any (fun p => p.1 == k)
    | none => false
  | JSVal.errV _ => k == ("message")
  | _ => false

/-- The `value instanceof Error` test. -/
def isNativeError : JSVal → Bool
  | JSVal.errV _ => true
  | _ => false

/-- JSON string escaping (quote and backslash; other characters of the
model's inputs need no escaping). -/
def jsonEscapeChar (c : Char) : String :=
  if c = '\"' then "\\\"" else if c = '\\' then "\\\\" else String.singleton c

/-- JSON escaping of a whole string. -/
def jsonEscape (s : String) : String :=
  String.join (s.toList.map jsonEscapeChar)

/-- A JSON string literal. -/
def jsonQuote (s : String) : String :=
  "\"" ++ jsonEscape s ++ "\""

/-- The serializer's visited set: ids of already-visited heap objects. -/
abbrev Seen : Type := List Nat

/-- The replacer closure of `safeStringify` (src/result.ts lines 31-41),
threaded through the serialization pass as explicit state: a nested
`BigInt` becomes its decimal string, an already-visited object reference
becomes the literal string `[Circular]`, a first-visited object reference
is recorded in the visited set. -/
def stringifyReplacer (seen : Seen) (val : JSVal) : Seen × JSVal :=
  match val with
  | JSVal.bigint i => (seen, JSVal.str (toString i))
  | JSVal.objRef id =>
    if id ∈ seen then (seen, JSVal.str ("[Circular]")) else (id :: seen, val)
  | _ => (seen, val)

/-- Serialize the property list of an object with the given per-value
serializer `f`: properties whose value serializes to `undefined`
(functions, symbols, `undefined`) are omitted, the rest become
`"key":value` fragments in property order. -/
def serFieldList (f : Seen → JSVal → Except JSVal (Seen × Option String)) :
    Seen → List (String × JSVal) → Except JSVal (Seen × List String)
  | seen, [] => Except.ok (seen, [])
  | seen, (k, fv) :: rest =>
    match f seen fv with
    | Except.error e => Except.error e
    | Except.ok (seen2, s?) =>
      match serFieldList f seen2 rest with
      | Except.error e => Except.error e
      | Except.ok (seen3, parts) =>
        Except.ok (seen3,
          match s? with
          | none => parts
          | some s => (jsonQuote k ++ (":") ++ s) :: parts)

/-- One step of `JSON.stringify`'s SerializeJSONProperty for a value in a
heap, parametric in the replacer `rep`: first the value's `toJSON` hook
(if any) runs, then the replacer, then the result is serialized.  `none`
in the result is `JSON.stringify` producing `undefined` for this
position. -/
def serProp (h : Heap) (rep : Seen → JSVal → Seen × JSVal) :
    Nat → Seen → JSVal → Except JSVal (Seen × Option String)
  | 0, _, _ => Except.error (JSVal.str ("__fuel__"))
  | fuel + 1, seen, v =>
    match
      (match v with
       | JSVal.objRef id =>
         match Heap.obj? h id with
         | some o =>
           match o.toJSONHook with
           | some r => r
           | none => Except.ok v
         | none => Except.ok v
       | _ => Except.ok v : Except JSVal JSVal)
    with
    | Except.error e => Except.error e
    | Except.ok v1 =>
      match rep seen v1 with
      | (seen1, v2) =>
        match v2 with
        | JSVal.undef => Except.ok (seen1, none)
        | JSVal.fnV => Except.ok (seen1, none)
        | JSVal.sym _ => Except.ok (seen1, none)
        | JSVal.null => Except.ok (seen1, some ("null"))
        | JSVal.bool b => Except.ok (seen1, some (cond b ("true") ("false")))
        | JSVal.num n => Except.ok (seen1, some (toString n))
        | JSVal.str s => Except.ok (seen1, some (jsonQuote s))
        | JSVal.bigint _ =>
          Except.error (JSVal.errV ("Do not know how to serialize a BigInt"))
        | JSVal.errV _ => Except.ok (seen1, some ("\x7b\x7d"))
        | JSVal.objRef id =>
          match Heap.obj? h id with
          | none => Except.ok (seen1, some ("null"))
          | some o =>
            match serFieldList (fun s w => serProp h rep fuel s w) seen1 o.fields with
            | Except.error e => Except.error e
            | Except.ok (seen2, parts) =>
              Except.ok (seen2, some ("\x7b" ++ String.intercalate (",") parts ++ "\x7d"))

/-- Fuel that the claims' inputs never exhaust (see the module comment). -/
def fuelFor (h : Heap) : Nat :=
  (h.length + 2) * (h.foldl (fun n o => n + o.fields.length + 2) 2)

/-- Model of `JSON.stringify(value, rep)` over a heap: `.ok none` is the call
returning `undefined`, `.error e` is the call throwing `e`. -/
def jsonStringifyWith (h : Heap) (rep : Seen → JSVal → Seen × JSVal)
    (v : JSVal) : Except JSVal (Option String) :=
  match serProp h rep (fuelFor h) [] v with
  | Except.ok p => Except.ok p.2
  | Except.error e => Except.error e

/-- The abstract string coercion `String(v)`.  For a plain object it
consults the object's `toString` behaviour (which may throw); without one
it yields the literal `[object Object]`. -/
def jsToString (h : Heap) : JSVal → Except JSVal String
  | JSVal.null => Except.ok ("null")
  | JSVal.undef => Except.ok ("undefined")
  | JSVal.bool b => Except.ok (cond b ("true") ("false"))
  | JSVal.num n => Except.ok (toString n)
  | JSVal.str s => Except.ok s
  | JSVal.bigint i => Except.ok (toString i)
  | JSVal.sym d => Except.ok ("Symbol(" ++ d ++ ")")
  | JSVal.fnV => Except.ok ("function () \x7b\x7d")
  | JSVal.errV m => Except.ok ("Error: " ++ m)
  | JSVal.objRef id =>
    match Heap.obj? h id with
    | none => Except.ok ("[object Object]")
    | some o =>
      match o.toStringHook with
      | none => Except.ok ("[object Object]")
      | some r => r

/-- The helper `safeStringify` translated from src/result.ts lines 12-46: native
errors render as their message, `BigInt` as decimal digits, symbols via
their string conversion, functions as `[Function]`; anything else is
JSON-serialized with the visited-set replacer, and if that throws, the
`catch` block returns the unprotected `String(value)` coercion. -/
def safeStringify (h : Heap) (value : JSVal) : Except JSVal (Option String) :=
  match value with
  | JSVal.errV m => Except.ok (some m)
  | JSVal.bigint i => Except.ok (some (toString i))
  | JSVal.sym d => Except.ok (some ("Symbol(" ++ d ++ ")"))
  | JSVal.fnV => Except.ok (some ("[Function]"))
  | v =>
    match jsonStringifyWith h stringifyReplacer v with
    | Except.ok r => Except.ok r
    | Except.error _ => Except.map some (jsToString h v)

/-- The replacer as the specification words it (claim C8 / spec §4.3 step
5): substitute the literal `[Circular]` for an already-visited nested
object reference, record first-visited object references, and convert
nested `BigInt` values to their decimal string form.  This definition
follows the specification text and is compared with the source-translated
`stringifyReplacer`. -/
def specReplacer (seen : Seen) (val : JSVal) : Seen × JSVal :=
  match val with
  | JSVal.objRef id =>
    if id ∈ seen then (seen, JSVal.str ("[Circular]")) else (id :: seen, val)
  | JSVal.bigint i => (seen, JSVal.str (toString i))
  | _ => (seen, val)

/-- The safe stringification as the specification words it (claim C8 /
spec §4.3, the six steps in priority order), compared with the
source-translated `safeStringify`. -/
def safeStringifySpec (h : Heap) (value : JSVal) : Except JSVal (Option String) :=
  match value with
  | JSVal.errV m => Except.ok (some m)
  | JSVal.bigint i => Except.ok (some (toString i))
  | JSVal.sym d => Except.ok (some ("Symbol(" ++ d ++ ")"))
  | JSVal.fnV => Except.ok (some ("[Function]"))
  | v =>
    match jsonStringifyWith h specReplacer v with
    | Except.ok r => Except.ok r
    | Except.error _ => Except.map some (jsToString h v)

/-- The fixed message tag of the error thrown by `unwrap` on `Err`. -/
def unwrapMsgHead : String := "[OxogTypes] Cannot unwrap Err: "

/-- Template-literal coercion of the value produced by `safeStringify`
(a string, or `undefined` when `JSON.stringify` yielded `undefined`). -/
def templateToString : Option String → String
  | none => "undefined"
  | some s => s

/-- A runtime `Result` instance: `ok` holds the success value, `err` the
error payload (payloads are arbitrary `JSVal`s, heap references
included). -/
inductive JSResult where
  | ok (value : JSVal)
  | err (error : JSVal)
deriving DecidableEq

/-- The method `unwrap` translated from src/result.ts: `OkImpl.unwrap` (lines
191-193) returns the value; `ErrImpl.unwrap` (lines 229-231) throws
`new Error` whose message is the fixed tag followed by the
template-literal rendering of `safeStringify(this.error)` — and if
`safeStringify` itself throws, that exception propagates. -/
def JSResult.unwrap (h : Heap) : JSResult → Except JSVal JSVal
  | JSResult.ok v => Except.ok v
  | JSResult.err e =>
    match safeStringify h e with
    | Except.ok r => Except.error (JSVal.errV (unwrapMsgHead ++ templateToString r))
    | Except.error ex => Except.error ex

/-- The utility `ResultUtils.tryCatch` translated from src/result.ts lines 304-310.
The protected call `fn` either returns a value or throws one.  A thrown
native error is wrapped directly; any other thrown value is coerced with
the unprotected `String(e)` and wrapped in a fresh error — if that
coercion throws, the exception escapes `tryCatch` (the `catch` block does
not protect its own body). -/
def ResultUtils.tryCatch (h : Heap) (fn : Except JSVal JSVal) :
    Except JSVal JSResult :=
  match fn with
  | Except.ok v => Except.ok (JSResult.ok v)
  | Except.error e =>
    if isNativeError e then Except.ok (JSResult.err e)
    else
      match jsToString h e with
      | Except.ok s => Except.ok (JSResult.err (JSVal.errV s))
      | Except.error ex => Except.error ex

/-- The utility `ResultUtils.fromPromise` translated from src/result.ts lines
323-329, with a promise modelled by its settlement: `.ok v` a
fulfillment, `.error e` a rejection.  The outer `Except` is the promise
returned by `fromPromise`: `.error` means that promise rejects. -/
def ResultUtils.fromPromise (h : Heap) (promise : Except JSVal JSVal) :
    Except JSVal JSResult :=
  match promise with
  | Except.ok v => Except.ok (JSResult.ok v)
  | Except.error e =>
    if isNativeError e then Except.ok (JSResult.err e)
    else
      match jsToString h e with
      | Except.ok s => Except.ok (JSResult.err (JSVal.errV s))
      | Except.error ex => Except.error ex

/-- The typed `Result` container: the closed two-variant union of
src/result.ts, generic in the payload types exactly as the source is. -/
inductive Result (T E : Type) where
  | Ok (value : T)
  | Err (error : E)
deriving DecidableEq

/-- The method `map` translated from src/result.ts: `OkImpl.map` (lines 175-177)
wraps `fn value` in a new `Ok`; `ErrImpl.map` (lines 213-215) returns
`this` unchanged without touching `fn`. -/
def Result.map {T E U : Type} : Result T E → (T → U) → Result U E
  | Result.Ok x, fn => Result.Ok (fn x)
  | Result.Err e, _ => Result.Err e

/-- The method `map` with an effectful callback, the callback's effect modelled by
explicit state passing: on `Ok` the callback runs once, on `Err` it is
never invoked, so the state comes back untouched. -/
def Result.mapSt {T E U σ : Type} :
    Result T E → (T → σ → U × σ) → σ → Result U E × σ
  | Result.Ok x, fn, s => ((Result.Ok (fn x s).1 : Result U E), (fn x s).2)
  | Result.Err e, _, s => (Result.Err e, s)

/-- The method `flatMap` translated from src/result.ts: `OkImpl.flatMap` (lines
179-181) returns `fn value` itself; `ErrImpl.flatMap` (lines 217-219)
returns `this` without invoking `fn`. -/
def Result.flatMap {T E U : Type} : Result T E → (T → Result U E) → Result U E
  | Result.Ok x, fn => fn x
  | Result.Err e, _ => Result.Err e

/-- The method `flatMap` with an effectful callback (explicit state passing). -/
def Result.flatMapSt {T E U σ : Type} :
    Result T E → (T → σ → Result U E × σ) → σ → Result U E × σ
  | Result.Ok x, fn, s => fn x s
  | Result.Err e, _, s => (Result.Err e, s)

/-- The loop of `ResultUtils.all` (src/result.ts lines 344-353), with the
`values` array as accumulator: the first `Err` is returned as the overall
result; otherwise each value is pushed and the loop continues. -/
def ResultUtils.allGo {T E : Type} (acc : List T) :
    List (Result T E) → Result (List T) E
  | [] => Result.Ok acc
  | r :: rest =>
    match r with
    | Result.Err e => Result.Err e
    | Result.Ok v => ResultUtils.allGo (acc ++ [v]) rest

/-- The utility `ResultUtils.all` translated from src/result.ts lines 344-353. -/
def ResultUtils.all {T E : Type} (results : List (Result T E)) :
    Result (List T) E :=
  ResultUtils.allGo [] results

/-- The guard `isResult` translated from src/guards.ts lines 141-148: non-null,
`typeof` object, boolean-typed `ok` property, and at least one of the
`value` / `error` properties present. -/
def isResult (h : Heap) (value : JSVal) : Bool :=
  decide (value ≠ JSVal.null) &&
  (typeofJS value == ("object")) &&
  (typeofJS (getField h value ("ok")) == ("boolean")) &&
  (hasField h value ("value") || hasField h value ("error"))

/-- The guard `isOk` translated from src/guards.ts lines 163-165. -/
def isOk (h : Heap) (value : JSVal) : Bool :=
  isResult h value && (getField h value ("ok") == JSVal.bool true)

/-- The guard `isErr` translated from src/guards.ts lines 180-182. -/
def isErr (h : Heap) (value : JSVal) : Bool :=
  isResult h value && (getField h value ("ok") == JSVal.bool false)

/-- The own properties of an `OkImpl` instance, in initialization order
(src/result.ts lines 169-173): the tag, the `error` field initialized to
`undefined`, and the constructor's `value`. -/
def okInstFields (value : JSVal) : List (String × JSVal) :=
  [(("ok"), JSVal.bool true), (("error"), JSVal.undef), (("value"), value)]

/-- The own properties of an `ErrImpl` instance (src/result.ts lines
207-211): the tag, the `value` field initialized to `undefined`, and the
constructor's `error`. -/
def errInstFields (error : JSVal) : List (String × JSVal) :=
  [(("ok"), JSVal.bool false), (("value"), JSVal.undef), (("error"), error)]

/-- Constructor `Ok(value)` at the JavaScript level: allocate an `OkImpl` instance. -/
def mkOkInst (h : Heap) (value : JSVal) : Heap × JSVal :=
  (h ++ [⟨okInstFields value, none, none⟩], JSVal.objRef h.length)

/-- Constructor `Err(error)` at the JavaScript level: allocate an `ErrImpl`
instance. -/
def mkErrInst (h : Heap) (error : JSVal) : Heap × JSVal :=
  (h ++ [⟨errInstFields error, none, none⟩], JSVal.objRef h.length)

/-- The self-referential object of the circular-reference test:
`circular.self = circular`. -/
def heapCircular : Heap :=
  [⟨[(("name"), JSVal.str ("test")), (("self"), JSVal.objRef 0)], none, none⟩]

/-- An object with a nested `BigInt` property. -/
def heapNestedBig : Heap :=
  [⟨[(("id"), JSVal.num 1), (("bigValue"), JSVal.bigint 999)], none, none⟩]

/-- An object whose `toJSON` throws but whose string coercion works —
the repository test "should handle objects that throw on property
access". -/
def heapBadToJSON : Heap :=
  [⟨[], some (Except.error (JSVal.errV ("Cannot serialize"))), none⟩]

/-- An object whose `toJSON` throws and whose string coercion also
throws a native error: `JSON.stringify` fails and the `String(value)`
fallback fails too. -/
def heapDoubleBad : Heap :=
  [⟨[], some (Except.error (JSVal.errV ("Cannot serialize"))),
    some (Except.error (JSVal.errV ("no primitive")))⟩]

/-- Like `heapDoubleBad`, but the string coercion throws the non-error
value `42`. -/
def heapThrow42 : Heap :=
  [⟨[], some (Except.error (JSVal.errV ("Cannot serialize"))),
    some (Except.error (JSVal.num 42))⟩]

/-- An object whose string coercion throws (its `toJSON` is absent). -/
def heapBadToString : Heap :=
  [⟨[], none, some (Except.error (JSVal.errV ("no primitive")))⟩]


/-- Looking up the freshly appended object. -/
theorem Heap.obj?_concat (h : Heap) (o : PlainObj) :
    Heap.obj? (h ++ [o]) h.length = some o := by
  simp [Heap.obj?, List.getElem?_concat_length]

/-- Reading a property of a fresh `OkImpl` instance. -/
theorem getField_mkOkInst (h : Heap) (x : JSVal) (k : String) :
    getField (mkOkInst h x).1 (JSVal.objRef h.length) k
      = ((List.lookup k (okInstFields x)).getD JSVal.undef) := by
  simp [mkOkInst, getField, Heap.obj?_concat]

/-- Reading a property of a fresh `ErrImpl` instance. -/
theorem getField_mkErrInst (h : Heap) (e : JSVal) (k : String) :
    getField (mkErrInst h e).1 (JSVal.objRef h.length) k
      = ((List.lookup k (errInstFields e)).getD JSVal.undef) := by
  simp [mkErrInst, getField, Heap.obj?_concat]

/-- Property presence on a fresh `OkImpl` instance. -/
theorem hasField_mkOkInst (h : Heap) (x : JSVal) (k : String) :
    hasField (mkOkInst h x).1 (JSVal.objRef h.length) k
      = (okInstFields x).any (fun p => p.1 == k) := by
  simp [mkOkInst, hasField, Heap.obj?_concat]

/-- Property presence on a fresh `ErrImpl` instance. -/
theorem hasField_mkErrInst (h : Heap) (e : JSVal) (k : String) :
    hasField (mkErrInst h e).1 (JSVal.objRef h.length) k
      = (errInstFields e).any (fun p => p.1 == k) := by
  simp [mkErrInst, hasField, Heap.obj?_concat]

/-- The reference produced by `Ok(value)`. -/
theorem mkOkInst_snd (h : Heap) (x : JSVal) :
    (mkOkInst h x).2 = JSVal.objRef h.length := rfl

/-- The reference produced by `Err(error)`. -/
theorem mkErrInst_snd (h : Heap) (e : JSVal) :
    (mkErrInst h e).2 = JSVal.objRef h.length := rfl

/-- The `all` loop maps a run of `Ok`s into the accumulator. -/
theorem allGo_map_ok {T E : Type} (vs : List T) (acc : List T) :
    ResultUtils.allGo acc (vs.map (Result.Ok : T → Result T E))
      = Result.Ok (acc ++ vs) := by
  induction vs generalizing acc with
  | nil => simp [ResultUtils.allGo]
  | cons v vs ih => simp [ResultUtils.allGo, ih]

/-- The `all` loop stops at the first `Err`, whatever follows it. -/
theorem allGo_first_err {T E : Type} (vs : List T) (acc : List T) (e : E)
    (rest : List (Result T E)) :
    ResultUtils.allGo acc (vs.map Result.Ok ++ Result.Err e :: rest)
      = Result.Err e := by
  induction vs generalizing acc with
  | nil => simp [ResultUtils.allGo]
  | cons v vs ih => simp [ResultUtils.allGo, ih]

/-- Claim C1 (refuted as stated; the code contradicts the spec's "never
throws under any input"): on an error payload whose `toJSON` throws —
making `JSON.stringify` throw — and whose string coercion also throws,
`safeStringify`'s unprotected `String(value)` fallback lets the coercion
exception escape.  The companion conjuncts show the intended fallback and
cycle handling do work when the coercion cooperates. -/
theorem claim_C1_safeStringify_throws :
    safeStringify heapDoubleBad (JSVal.objRef 0)
      = Except.error (JSVal.errV ("no primitive")) ∧
    safeStringify heapBadToJSON (JSVal.objRef 0)
      = Except.ok (some ("[object Object]")) ∧
    safeStringify heapCircular (JSVal.objRef 0)
      = Except.ok (some ("\x7b\"name\":\"test\",\"self\":\"[Circular]\"\x7d")) :=
  ⟨rfl, rfl, rfl⟩

/-- Claim C2, counterexample to the universally quantified form: when the
error payload's `toJSON` throws and its string coercion throws the
non-error value `42`, `unwrap` on that `Err` propagates `42` — it does
not throw an `Error` carrying the fixed message tag. -/
theorem claim_C2_counterexample :
    JSResult.unwrap heapThrow42 (JSResult.err (JSVal.objRef 0))
      = Except.error (JSVal.num 42) ∧
    isNativeError (JSVal.num 42) = false :=
  ⟨rfl, rfl⟩

/-- Claim C2 (amended): `unwrap` on `Ok x` returns `x`; and whenever the
safe stringification of the error payload completes with result `r`,
`unwrap` on `Err e` throws an `Error` whose message is the fixed tag
`[OxogTypes] Cannot unwrap Err: ` followed by the template-literal
rendering of `r`. -/
theorem claim_C2_unwrap :
    (∀ (h : Heap) (x : JSVal), JSResult.unwrap h (JSResult.ok x) = Except.ok x) ∧
    (∀ (h : Heap) (e : JSVal) (r : Option String),
        safeStringify h e = Except.ok r →
        JSResult.unwrap h (JSResult.err e)
          = Except.error (JSVal.errV (unwrapMsgHead ++ templateToString r))) := by
  constructor
  · intro h x
    rfl
  · intro h e r hr
    simp [JSResult.unwrap, hr]

/-- Claim C2, witness: unwrapping `Err("error")` throws the tagged
message with the JSON-quoted rendering of the payload. -/
theorem claim_C2_witness :
    JSResult.unwrap [] (JSResult.err (JSVal.str ("error")))
      = Except.error (JSVal.errV ("[OxogTypes] Cannot unwrap Err: \"error\"")) :=
  claim_C2_unwrap.2 [] (JSVal.str ("error")) (some ("\"error\"")) rfl

/-- Claim C3: `Ok(x).flatMap(f)` is exactly `f x`; `Err(e).flatMap(f)` is
`Err e`; and with an effectful callback (explicit state passing) the
`Err` branch returns the state untouched — the callback is never
invoked. -/
theorem claim_C3_flatMap :
    (∀ (T E U : Type) (x : T) (fn : T → Result U E),
        Result.flatMap (Result.Ok x : Result T E) fn = fn x) ∧
    (∀ (T E U : Type) (e : E) (fn : T → Result U E),
        Result.flatMap (Result.Err e : Result T E) fn
          = (Result.Err e : Result U E)) ∧
    (∀ (T E U σ : Type) (e : E) (fn : T → σ → Result U E × σ) (s : σ),
        Result.flatMapSt (Result.Err e : Result T E) fn s
          = ((Result.Err e : Result U E), s)) :=
  ⟨fun _ _ _ _ _ => rfl, fun _ _ _ _ _ => rfl, fun _ _ _ _ _ _ _ => rfl⟩

/-- Claim C3, witness: a concrete chained parse step. -/
theorem claim_C3_witness :
    Result.flatMap (Result.Ok 10 : Result Nat String) (fun x => Result.Ok (x * 2))
      = (Result.Ok 20 : Result Nat String) ∧
    Result.flatMapSt (Result.Err ("boom") : Result Nat String)
        (fun x n => (Result.Ok x, n + 1)) 0
      = ((Result.Err ("boom") : Result Nat String), 0) :=
  ⟨claim_C3_flatMap.1 Nat String Nat 10 (fun x => Result.Ok (x * 2)),
   claim_C3_flatMap.2.2 Nat String Nat Nat ("boom") (fun x n => (Result.Ok x, n + 1)) 0⟩

/-- Claim C4: `Ok(x).map(f)` equals `Ok (f x)`; `Err(e).map(f)` equals
`Err e`, and with an effectful callback the state comes back untouched on
`Err`; `map` composes on `Ok` receivers. -/
theorem claim_C4_map :
    (∀ (T E U : Type) (x : T) (fn : T → U),
        Result.map (Result.Ok x : Result T E) fn = Result.Ok (fn x)) ∧
    (∀ (T E U : Type) (e : E) (fn : T → U),
        Result.map (Result.Err e : Result T E) fn
          = (Result.Err e : Result U E)) ∧
    (∀ (T E U σ : Type) (e : E) (fn : T → σ → U × σ) (s : σ),
        Result.mapSt (Result.Err e : Result T E) fn s
          = ((Result.Err e : Result U E), s)) ∧
    (∀ (T E U V : Type) (x : T) (f : T → U) (g : U → V),
        Result.map (Result.map (Result.Ok x : Result T E) f) g
          = Result.map (Result.Ok x : Result T E) (fun y => g (f y))) :=
  ⟨fun _ _ _ _ _ => rfl, fun _ _ _ _ _ => rfl, fun _ _ _ _ _ _ _ => rfl,
   fun _ _ _ _ _ _ _ => rfl⟩

/-- Claim C4, witness: concrete functor laws. -/
theorem claim_C4_witness :
    Result.map (Result.Ok 21 : Result Nat String) (fun x => x * 2)
      = (Result.Ok 42 : Result Nat String) ∧
    Result.map (Result.Err ("e") : Result Nat String) (fun x => x * 2)
      = (Result.Err ("e") : Result Nat String) :=
  ⟨claim_C4_map.1 Nat String Nat 21 (fun x => x * 2),
   claim_C4_map.2.1 Nat String Nat ("e") (fun x => x * 2)⟩

/-- Claim C5: `all([])` is `Ok []`; a run of `Ok`s aggregates into `Ok`
of the values in input order; and as soon as the scan hits an `Err`, that
`Err` is the overall result, whatever the (arbitrary, uninspected)
remainder of the input is. -/
theorem claim_C5_all :
    (∀ (T E : Type),
        ResultUtils.all ([] : List (Result T E)) = Result.Ok ([] : List T)) ∧
    (∀ (T E : Type) (vs : List T),
        ResultUtils.all (vs.map (Result.Ok : T → Result T E)) = Result.Ok vs) ∧
    (∀ (T E : Type) (vs : List T) (e : E) (rest : List (Result T E)),
        ResultUtils.all (vs.map Result.Ok ++ Result.Err e :: rest)
          = Result.Err e) := by
  refine ⟨fun T E => rfl, fun T E vs => ?_, fun T E vs e rest => ?_⟩
  · simpa using allGo_map_ok (E := E) vs []
  · exact allGo_first_err vs [] e rest

/-- Claim C5, witness: the spec's own examples. -/
theorem claim_C5_witness :
    ResultUtils.all
        ([Result.Ok 1, Result.Ok 2, Result.Ok 3] : List (Result Nat String))
      = Result.Ok [1, 2, 3] ∧
    ResultUtils.all
        ([Result.Ok 1, Result.Err ("a"), Result.Err ("b")] : List (Result Nat String))
      = Result.Err ("a") :=
  ⟨claim_C5_all.2.1 Nat String [1, 2, 3],
   claim_C5_all.2.2 Nat String [1] ("a") [Result.Err ("b")]⟩

/-- Claim C6 (refuted as stated; the code contradicts the spec's
"never itself raises"): `tryCatch` wraps a normal return in `Ok`, wraps a
thrown native error directly, and wraps any other thrown value in a new
error built from its string coercion — but when the thrown value's string
coercion itself throws, that exception escapes to the caller. -/
theorem claim_C6_tryCatch :
    ResultUtils.tryCatch [] (Except.ok (JSVal.num 5))
      = Except.ok (JSResult.ok (JSVal.num 5)) ∧
    ResultUtils.tryCatch [] (Except.error (JSVal.str ("boom")))
      = Except.ok (JSResult.err (JSVal.errV ("boom"))) ∧
    ResultUtils.tryCatch [] (Except.error (JSVal.errV ("kaboom")))
      = Except.ok (JSResult.err (JSVal.errV ("kaboom"))) ∧
    ResultUtils.tryCatch heapBadToString (Except.error (JSVal.objRef 0))
      = Except.error (JSVal.errV ("no primitive")) :=
  ⟨rfl, rfl, rfl, rfl⟩

/-- Claim C7 (refuted as stated; the code contradicts the spec's "the
returned promise itself never rejects"): `fromPromise` resolves to `Ok`
on fulfillment and to a normalized `Err` on rejection — but when the
rejection reason's string coercion throws, the returned promise rejects
with that exception. -/
theorem claim_C7_fromPromise :
    ResultUtils.fromPromise [] (Except.ok (JSVal.num 5))
      = Except.ok (JSResult.ok (JSVal.num 5)) ∧
    ResultUtils.fromPromise [] (Except.error (JSVal.str ("boom")))
      = Except.ok (JSResult.err (JSVal.errV ("boom"))) ∧
    ResultUtils.fromPromise [] (Except.error (JSVal.errV ("nope")))
      = Except.ok (JSResult.err (JSVal.errV ("nope"))) ∧
    ResultUtils.fromPromise heapBadToString (Except.error (JSVal.objRef 0))
      = Except.error (JSVal.errV ("no primitive")) :=
  ⟨rfl, rfl, rfl, rfl⟩

/-- Claim C8: the source-translated `safeStringify` coincides everywhere
with the dispatch the specification describes (error message verbatim,
`BigInt` decimal digits, symbol string conversion, the `[Function]`
literal, JSON serialization with the visited-set replacer, generic string
coercion on serialization failure), and the companion conjuncts pin down
representative branches concretely. -/
theorem claim_C8_safeStringify_spec :
    (∀ (h : Heap) (v : JSVal), safeStringify h v = safeStringifySpec h v) ∧
    safeStringify heapNestedBig (JSVal.objRef 0)
      = Except.ok (some ("\x7b\"id\":1,\"bigValue\":\"999\"\x7d")) ∧
    safeStringify [] (JSVal.sym ("test")) = Except.ok (some ("Symbol(test)")) ∧
    safeStringify [] JSVal.fnV = Except.ok (some ("[Function]")) ∧
    safeStringify [] (JSVal.errV ("Something went wrong"))
      = Except.ok (some ("Something went wrong")) ∧
    safeStringify [] (JSVal.bigint 123456789)
      = Except.ok (some ("123456789")) := by
  refine ⟨?_, rfl, rfl, rfl, rfl, rfl⟩
  have hrep : stringifyReplacer = specReplacer := by
    funext seen v
    cases v <;> rfl
  intro h v
  cases v <;> simp [safeStringify, safeStringifySpec, hrep]

/-- Claim C8, witness: the equivalence applied to the circular payload. -/
theorem claim_C8_witness :
    safeStringifySpec heapCircular (JSVal.objRef 0)
      = Except.ok (some ("\x7b\"name\":\"test\",\"self\":\"[Circular]\"\x7d")) :=
  (claim_C8_safeStringify_spec.1 heapCircular (JSVal.objRef 0)).symm.trans rfl

/-- Claim C9: `isResult` holds exactly on non-null values of object type
with a boolean-typed `ok` property and at least one of the `value` /
`error` properties present; `isOk` (resp. `isErr`) holds exactly when
`isResult` holds and the tag is `true` (resp. `false`); and the guards
recognize every constructor-built instance.  The guards are total Boolean
functions of the model — property reads never throw. -/
theorem claim_C9_guards :
    (∀ (h : Heap) (v : JSVal),
        isResult h v = true ↔
          (v ≠ JSVal.null ∧ typeofJS v = ("object") ∧
           typeofJS (getField h v ("ok")) = ("boolean") ∧
           (hasField h v ("value") = true ∨ hasField h v ("error") = true))) ∧
    (∀ (h : Heap) (v : JSVal),
        isOk h v = true ↔
          (isResult h v = true ∧ getField h v ("ok") = JSVal.bool true)) ∧
    (∀ (h : Heap) (v : JSVal),
        isErr h v = true ↔
          (isResult h v = true ∧ getField h v ("ok") = JSVal.bool false)) ∧
    (∀ (h : Heap) (x : JSVal),
        isOk (mkOkInst h x).1 (mkOkInst h x).2 = true ∧
        isErr (mkOkInst h x).1 (mkOkInst h x).2 = false) ∧
    (∀ (h : Heap) (e : JSVal),
        isErr (mkErrInst h e).1 (mkErrInst h e).2 = true ∧
        isOk (mkErrInst h e).1 (mkErrInst h e).2 = false) := by
  refine ⟨?_, ?_, ?_, ?_, ?_⟩
  · intro h v
    simp [isResult, and_assoc]
  · intro h v
    simp [isOk]
  · intro h v
    simp [isErr]
  · intro h x
    constructor
    · simp [isOk, isResult, getField_mkOkInst, hasField_mkOkInst,
        mkOkInst_snd, okInstFields, typeofJS, List.lookup]
    · simp [isErr, isResult, getField_mkOkInst, hasField_mkOkInst,
        mkOkInst_snd, okInstFields, typeofJS, List.lookup]
  · intro h e
    constructor
    · simp [isErr, isResult, getField_mkErrInst, hasField_mkErrInst,
        mkErrInst_snd, errInstFields, typeofJS, List.lookup]
    · simp [isOk, isResult, getField_mkErrInst, hasField_mkErrInst,
        mkErrInst_snd, errInstFields, typeofJS, List.lookup]

/-- Claim C9, witness: a concrete shape-compatible object is recognized. -/
theorem claim_C9_witness :
    isResult [⟨okInstFields (JSVal.num 7), none, none⟩] (JSVal.objRef 0) = true :=
  (claim_C9_guards.1 [⟨okInstFields (JSVal.num 7), none, none⟩]
      (JSVal.objRef 0)).mpr ⟨by decide, rfl, rfl, Or.inl rfl⟩

/-- Claim C10, counterexample to "no error field": a freshly constructed
`Ok(1)` instance does carry an own `error` property (initialized to
`undefined` by `OkImpl`), so the `in` operator sees it. -/
theorem claim_C10_counterexample :
    hasField (mkOkInst [] (JSVal.num 1)).1 (mkOkInst [] (JSVal.num 1)).2 ("error")
      = true ∧
    getField (mkOkInst [] (JSVal.num 1)).1 (mkOkInst [] (JSVal.num 1)).2 ("error")
      = JSVal.undef :=
  ⟨rfl, rfl⟩

/-- Claim C10 (amended): `Ok(x)` carries `ok = true`, `value = x`, and an
`error` property that is present but always `undefined`; `Err(e)` carries
`ok = false`, `error = e`, and a `value` property present but always
`undefined`.  The tag thus determines which of the two properties holds
defined data, and the two defined payloads are mutually exclusive. -/
theorem claim_C10_fields :
    (∀ (h : Heap) (x : JSVal),
        getField (mkOkInst h x).1 (mkOkInst h x).2 ("ok") = JSVal.bool true ∧
        getField (mkOkInst h x).1 (mkOkInst h x).2 ("value") = x ∧
        getField (mkOkInst h x).1 (mkOkInst h x).2 ("error") = JSVal.undef ∧
        hasField (mkOkInst h x).1 (mkOkInst h x).2 ("value") = true ∧
        hasField (mkOkInst h x).1 (mkOkInst h x).2 ("error") = true) ∧
    (∀ (h : Heap) (e : JSVal),
        getField (mkErrInst h e).1 (mkErrInst h e).2 ("ok") = JSVal.bool false ∧
        getField (mkErrInst h e).1 (mkErrInst h e).2 ("error") = e ∧
        getField (mkErrInst h e).1 (mkErrInst h e).2 ("value") = JSVal.undef ∧
        hasField (mkErrInst h e).1 (mkErrInst h e).2 ("error") = true ∧
        hasField (mkErrInst h e).1 (mkErrInst h e).2 ("value") = true) := by
  constructor
  · intro h x
    refine ⟨?_, ?_, ?_, ?_, ?_⟩ <;>
      simp [mkOkInst_snd, getField_mkOkInst, hasField_mkOkInst, okInstFields,
        List.lookup]
  · intro h e
    refine ⟨?_, ?_, ?_, ?_, ?_⟩ <;>
      simp [mkErrInst_snd, getField_mkErrInst, hasField_mkErrInst, errInstFields,
        List.lookup]
